import Mathlib

/-!
# Loan application system: a shallow embedding

This file embeds the ledger core of the loan application program
(`src/project.py`): the record types (`User`, `Loan`, `Payment`), the
database state, and the operations that mutate it
(`LoanApplicationSystem.apply_for_loan`, `LoanApplicationSystem.approve_loans`,
`LoanApplicationSystem.make_payment` together with `Loan.make_payment`),
plus the read-side queries (`Loan.get_by_id`, `Loan.get_user_loans`,
`Payment.get_loan_payments`, `pending_queue`).

Modelling conventions:
* Python floats for money are embedded as `ℚ` (exact arithmetic); the
  question of binary-float versus decimal behaviour is treated separately.
* Timestamps (`datetime.now()`, `created_at`, `payment_date`) are `Nat`
  tick values supplied by the caller of each operation.
* The `status` column is a `String`, exactly as in the source
  (`'pending'`, `'approved'`, `'rejected'`, `'paid'`), with no validation.
* SQL effects are embedded over in-memory tables: `INSERT ... RETURNING id`
  appends a row and bumps the `SERIAL` counter, a full-row `UPDATE` keyed on
  the primary key is `updateLoan`, the status-only `UPDATE` of
  `approve_loans` is `updateStatus`.  A `SELECT ... ORDER BY x DESC` is a
  filter followed by a descending insertion sort; a `SELECT` with no
  `ORDER BY` (the pending-loans query in `approve_loans`) is a plain filter
  in table (insertion) order.
-/

structure User where
  user_id : Nat
  username : String
  password_hash : String
  is_admin : Bool
  created_at : Nat
  deriving DecidableEq

structure Loan where
  loan_id : Nat
  user_id : Nat
  amount : ℚ
  term : ℤ
  interest_rate : ℚ
  status : String
  created_at : Nat
  current_balance : ℚ
  deriving DecidableEq

structure Payment where
  payment_id : Nat
  loan_id : Nat
  amount : ℚ
  payment_date : Nat
  deriving DecidableEq

/-- The backing store: the three tables plus the `SERIAL` counters that
`INSERT ... RETURNING` draws fresh primary keys from. -/
structure DBState where
  users : List User
  loans : List Loan
  payments : List Payment
  next_loan_id : Nat
  next_payment_id : Nat
  deriving DecidableEq

/-- The freshly initialised database of `_initialize_database`: empty
`loans` and `payments` tables and the pre-seeded admin account. -/
def initState : DBState :=
  { users := [{ user_id := 1, username := "admin", password_hash := "", is_admin := true,
                created_at := 0 }],
    loans := [], payments := [], next_loan_id := 1, next_payment_id := 1 }

/-- `Loan.get_by_id`: `SELECT * FROM loans WHERE loan_id = %s`. -/
def Loan.get_by_id (s : DBState) (lid : Nat) : Option Loan :=
  s.loans.find? (fun l => l.loan_id == lid)

/-- "`a` was created no earlier than `b`": the descending `created_at`
order used by `ORDER BY created_at DESC`. -/
def createdLater (a b : Loan) : Prop :=
  b.created_at ≤ a.created_at

instance : DecidableRel createdLater :=
  fun a b => inferInstanceAs (Decidable (b.created_at ≤ a.created_at))

instance : IsTotal Loan createdLater :=
  ⟨fun a b => le_total b.created_at a.created_at⟩

instance : IsTrans Loan createdLater :=
  ⟨fun _ _ _ h1 h2 => le_trans h2 h1⟩

/-- `Loan.get_user_loans`:
`SELECT * FROM loans WHERE user_id = %s ORDER BY created_at DESC`. -/
def Loan.get_user_loans (s : DBState) (uid : Nat) : List Loan :=
  List.insertionSort createdLater (s.loans.filter (fun l => l.user_id == uid))

/-- "`a` was applied no earlier than `b`": the descending `payment_date`
order used by `ORDER BY payment_date DESC`. -/
def appliedLater (a b : Payment) : Prop :=
  b.payment_date ≤ a.payment_date

instance : DecidableRel appliedLater :=
  fun a b => inferInstanceAs (Decidable (b.payment_date ≤ a.payment_date))

instance : IsTotal Payment appliedLater :=
  ⟨fun a b => le_total b.payment_date a.payment_date⟩

instance : IsTrans Payment appliedLater :=
  ⟨fun _ _ _ h1 h2 => le_trans h2 h1⟩

/-- `Payment.get_loan_payments`:
`SELECT * FROM payments WHERE loan_id = %s ORDER BY payment_date DESC`. -/
def Payment.get_loan_payments (s : DBState) (lid : Nat) : List Payment :=
  List.insertionSort appliedLater (s.payments.filter (fun p => p.loan_id == lid))

/-- Sum of the recorded payment amounts against one loan. -/
def paymentSum (ps : List Payment) (lid : Nat) : ℚ :=
  ((ps.filter (fun p => p.loan_id == lid)).map Payment.amount).sum

/-- Outcome of `Loan.make_payment`: the source returns `(False, msg)` with
no writes, or `(True, "Payment successful")` after writing the mutated loan
row and inserting the payment row.  `accepted` carries the loan as last
saved and the inserted payment row. -/
inductive PayResult where
  | rejected (msg : String)
  | accepted (loan : Loan) (p : Payment) (msg : String)
  deriving DecidableEq

/-- `Loan.make_payment` (lines 154-172): validates the amount against the
in-memory object, decrements the balance, creates the payment row
(`Payment.create` + `save`), and flips the status to `'paid'` when the
balance reaches zero.  `pid` is the `SERIAL` key the insert would draw. -/
def Loan.make_payment (l : Loan) (amount : ℚ) (now pid : Nat) : PayResult :=
  if amount ≤ 0 then .rejected "Payment amount must be positive"
  else if l.current_balance < amount then .rejected "Payment exceeds current balance"
  else
    let l1 : Loan := { l with current_balance := l.current_balance - amount }
    let p : Payment := { payment_id := pid, loan_id := l.loan_id, amount := amount,
                         payment_date := now }
    if l1.current_balance = 0 then .accepted { l1 with status := "paid" } p "Payment successful"
    else .accepted l1 p "Payment successful"

/-- `Loan.save` on an existing row: full-row `UPDATE ... WHERE loan_id = %s`. -/
def updateLoan (loans : List Loan) (l2 : Loan) : List Loan :=
  loans.map (fun m => if m.loan_id = l2.loan_id then l2 else m)

/-- The status-only `UPDATE loans SET status = %s WHERE loan_id = %s`
issued by `approve_loans`. -/
def updateStatus (loans : List Loan) (lid : Nat) (st : String) : List Loan :=
  loans.map (fun m => if m.loan_id = lid then { m with status := st } else m)

/-- Outcome of the payment path of `LoanApplicationSystem.make_payment`,
one constructor per distinct report of the source: `notFound` for a
nonexistent target loan, `notApproved` for "This loan is not approved for
payment.", `failed msg` for the rejections of `Loan.make_payment`, and
`success` carrying the balance and status of the loan object the caller
holds after the call. -/
inductive PayOutcome where
  | success (balance : ℚ) (status : String)
  | notFound
  | notApproved
  | failed (msg : String)
  deriving DecidableEq

/-- The commit half of a payment: run `Loan.make_payment` on the loan
object `l` the session holds (its reads and the computed balance use `l`,
not the current table row) and apply its writes to the store `s`.  With
`autocommit = True` each write lands directly on `s`. -/
def payCommit (s : DBState) (l : Loan) (amount : ℚ) (now : Nat) : DBState × PayOutcome :=
  match Loan.make_payment l amount now s.next_payment_id with
  | .rejected msg => (s, .failed msg)
  | .accepted l2 p _ =>
      ({ s with loans := updateLoan s.loans l2,
                payments := s.payments ++ [p],
                next_payment_id := s.next_payment_id + 1 },
       .success l2.current_balance l2.status)

/-- One session's payment attempt given the loan object it previously read:
the `loan.status != 'approved'` guard of `LoanApplicationSystem.make_payment`
followed by `Loan.make_payment`, both evaluated against that object. -/
def paySession (s : DBState) (l : Loan) (amount : ℚ) (now : Nat) : DBState × PayOutcome :=
  if l.status ≠ "approved" then (s, .notApproved)
  else payCommit s l amount now

/-- The payment path of `LoanApplicationSystem.make_payment` (lines
345-359) with the target loan addressed by id: the loan is freshly read
from the store, the status guard is checked, then `Loan.make_payment`
runs.  (In the CLI the read is `get_user_loans` plus an index selection;
a selection that resolves to no loan reports an error and writes nothing,
embedded as `notFound`.) -/
def LoanApplicationSystem.make_payment (s : DBState) (lid : Nat) (amount : ℚ) (now : Nat) :
    DBState × PayOutcome :=
  match Loan.get_by_id s lid with
  | none => (s, .notFound)
  | some l => paySession s l amount now

/-- `LoanApplicationSystem.apply_for_loan` (lines 307-329): derives the
interest rate as `min(5.0 + (term / 12), 15.0)`, builds the loan with
`status = 'pending'` and `current_balance = amount`, and inserts it.  The
only input validation in the source is the numeric parse (`ValueError`);
any parsed `amount` and `term` reach this code. -/
def LoanApplicationSystem.apply_for_loan (s : DBState) (uid : Nat) (amount : ℚ) (term : ℤ)
    (now : Nat) : DBState × Loan :=
  let interest_rate : ℚ := min (5 + (term : ℚ) / 12) 15
  let loan : Loan :=
    { loan_id := s.next_loan_id, user_id := uid, amount := amount, term := term,
      interest_rate := interest_rate, status := "pending", created_at := now,
      current_balance := amount }
  ({ s with loans := s.loans ++ [loan], next_loan_id := s.next_loan_id + 1 }, loan)

/-- `LoanApplicationSystem.approve_loans` (lines 425-469): queries the
pending loans (`WHERE l.status = 'pending'`, no `ORDER BY`), lets the
admin pick one by index and enter `a`/`r`, and issues the status-only
update for the selected loan's id.  The returned string is the message the
source prints. -/
def LoanApplicationSystem.approve_loans (s : DBState) (choice : Nat) (action : String) :
    DBState × String :=
  let pending := s.loans.filter (fun l => l.status == "pending")
  if pending.isEmpty then (s, "No pending loans to approve.")
  else
    match pending.get? choice with
    | none => (s, "Invalid selection.")
    | some sel =>
      if action == "a" then
        ({ s with loans := updateStatus s.loans sel.loan_id "approved" },
         "Loan approved successfully.")
      else if action == "r" then
        ({ s with loans := updateStatus s.loans sel.loan_id "rejected" },
         "Loan rejected.")
      else (s, "Invalid action.")

/-- The pending-loans query of `approve_loans`:
`SELECT l.*, u.username FROM loans l JOIN users u ON l.user_id = u.user_id
WHERE l.status = 'pending'` - note: no `ORDER BY`, so rows come back in
table (insertion) order. -/
def pending_queue (s : DBState) : List (Loan × String) :=
  (s.loans.filter (fun l => l.status == "pending")).filterMap
    (fun l => (s.users.find? (fun u => u.user_id == l.user_id)).map (fun u => (l, u.username)))

/-- The mutating operations of the ledger core, as invoked sequentially by
the menu loop. -/
inductive Op where
  | applyForLoan (uid : Nat) (amount : ℚ) (term : ℤ) (now : Nat)
  | decideLoan (choice : Nat) (action : String)
  | payLoan (lid : Nat) (amount : ℚ) (now : Nat)

/-- The store after one committed operation. -/
def step (s : DBState) : Op → DBState
  | .applyForLoan uid a t n => (LoanApplicationSystem.apply_for_loan s uid a t n).1
  | .decideLoan c act => (LoanApplicationSystem.approve_loans s c act).1
  | .payLoan lid a n => (LoanApplicationSystem.make_payment s lid a n).1

/-- States reachable from the freshly initialised database by committed
operations. -/
inductive Reachable : DBState → Prop where
  | base : Reachable initState
  | tail {s : DBState} (op : Op) : Reachable s → Reachable (step s op)

/-!
## Claim-side models

`applyPaymentSpec` restates, in the order the specification gives them,
the `ApplyPayment` contract of the spec: fail typed with no mutation
unless the loan exists, its status is `approved`, and
`0 < amount ≤ current_balance`; on success decrement the balance by the
amount, append one payment row with that exact amount, flip to `paid` on
zero, and report the updated balance and status.  It is compared with the
source-derived `LoanApplicationSystem.make_payment`.

`DecideSpec` models, from the spec's words alone, the operation
`Decide(admin, loanId, decision)`: "Loads the loan; fails with `NotFound`
if absent.  Fails with `InvalidState` if `status != Pending` (no
re-deciding).  On success, sets `status` to Approved or Rejected and
persists."  The source has no such loan-id-addressed operation (its
`approve_loans` can only select from the currently pending rows); the
model exists to contrast the two behaviours.
-/

/-- The spec's `ApplyPayment` contract, written from the claim's words. -/
def applyPaymentSpec (s : DBState) (lid : Nat) (amount : ℚ) (now : Nat) : DBState × PayOutcome :=
  match Loan.get_by_id s lid with
  | none => (s, .notFound)
  | some l =>
    if l.status ≠ "approved" then (s, .notApproved)
    else if ¬ 0 < amount then (s, .failed "Payment amount must be positive")
    else if ¬ amount ≤ l.current_balance then (s, .failed "Payment exceeds current balance")
    else
      ({ s with
          loans := updateLoan s.loans
            { l with current_balance := l.current_balance - amount,
                     status := if l.current_balance - amount = 0 then "paid" else l.status },
          payments := s.payments ++
            [{ payment_id := s.next_payment_id, loan_id := lid, amount := amount,
               payment_date := now }],
          next_payment_id := s.next_payment_id + 1 },
       .success (l.current_balance - amount)
         (if l.current_balance - amount = 0 then "paid" else l.status))

/-- Typed failures of the spec's `Decide` operation. -/
inductive DecideError where
  | notFound
  | invalidState
  deriving DecidableEq

/-- Modelled from the spec: `Decide(admin, loanId, decision)` addressed by
loan id, failing with `InvalidState` whenever the target loan is no longer
pending.  Missing from the source, which only ever updates a loan selected
from the current pending queue. -/
def DecideSpec (s : DBState) (lid : Nat) (approve : Bool) : DBState × Option DecideError :=
  match Loan.get_by_id s lid with
  | none => (s, some .notFound)
  | some l =>
    if l.status ≠ "pending" then (s, some .invalidState)
    else ({ s with loans := updateStatus s.loans lid (if approve then "approved" else "rejected") },
          none)

/-- The legal one-directional moves of the loan status machine
(`pending → approved → paid`, `pending → rejected`), reflexively closed. -/
def allowedNext (a b : String) : Prop :=
  b = a
  ∨ (a = "pending" ∧ (b = "approved" ∨ b = "rejected"))
  ∨ (a = "approved" ∧ b = "paid")

/-!
## The ledger invariant

`LoanInv` collects the per-loan facts that hold in every reachable store:
the ledger equation `principal − Σ payments = balance`, nonnegativity of
the balance for loans originated with nonnegative principal, that loans
which were never approved carry no payments, that `paid` means zero
balance, and that an `approved` loan with positive principal has positive
balance.  `Inv` adds the freshness of the `SERIAL` counters and uniqueness
of loan ids.
-/

def LoanInv (ps : List Payment) (l : Loan) : Prop :=
  l.amount - paymentSum ps l.loan_id = l.current_balance
  ∧ (0 ≤ l.amount → 0 ≤ l.current_balance)
  ∧ (l.status = "pending" → paymentSum ps l.loan_id = 0)
  ∧ (l.status = "rejected" → paymentSum ps l.loan_id = 0)
  ∧ (l.status = "paid" → l.current_balance = 0)
  ∧ (l.status = "approved" → 0 < l.amount → 0 < l.current_balance)

def StoreInv (s : DBState) : Prop :=
  (∀ l ∈ s.loans, l.loan_id < s.next_loan_id ∧ LoanInv s.payments l)
  ∧ (∀ p ∈ s.payments, p.loan_id < s.next_loan_id)
  ∧ (s.loans.map Loan.loan_id).Nodup

/-!
## Helper lemmas
-/

lemma get_by_id_mem {s : DBState} {lid : Nat} {l : Loan} (h : Loan.get_by_id s lid = some l) :
    l ∈ s.loans ∧ l.loan_id = lid := by
  unfold Loan.get_by_id at h
  refine ⟨List.mem_of_find?_eq_some h, ?_⟩
  simpa using List.find?_some h

lemma mem_id_unique {loans : List Loan} (hnd : (loans.map Loan.loan_id).Nodup) {a b : Loan}
    (ha : a ∈ loans) (hb : b ∈ loans) (h : a.loan_id = b.loan_id) : a = b :=
  List.inj_on_of_nodup_map hnd ha hb h

lemma find?_id_of_mem {loans : List Loan} (hnd : (loans.map Loan.loan_id).Nodup) {l : Loan}
    (hl : l ∈ loans) : loans.find? (fun m => m.loan_id == l.loan_id) = some l := by
  induction loans with
  | nil => cases hl
  | cons x xs ih =>
    simp only [List.map_cons, List.nodup_cons] at hnd
    rcases List.mem_cons.mp hl with rfl | hx
    · simp
    · have hne : (x.loan_id == l.loan_id) = false := by
        simp only [beq_eq_false_iff_ne, ne_eq]
        intro he
        exact hnd.1 (he ▸ List.mem_map_of_mem Loan.loan_id hx)
      rw [List.find?_cons, hne]
      exact ih hnd.2 hx

lemma get_by_id_of_mem {s : DBState} {l : Loan} (hnd : (s.loans.map Loan.loan_id).Nodup)
    (hl : l ∈ s.loans) : Loan.get_by_id s l.loan_id = some l :=
  find?_id_of_mem hnd hl

lemma paymentSum_append (ps : List Payment) (p : Payment) (lid : Nat) :
    paymentSum (ps ++ [p]) lid = paymentSum ps lid + (if p.loan_id = lid then p.amount else 0) := by
  unfold paymentSum
  rw [List.filter_append]
  by_cases h : p.loan_id = lid
  · simp [h]
  · simp [h]

lemma updateLoan_map_id (loans : List Loan) (l2 : Loan) :
    (updateLoan loans l2).map Loan.loan_id = loans.map Loan.loan_id := by
  unfold updateLoan
  rw [List.map_map]
  refine List.map_congr_left ?_
  intro m _
  by_cases h : m.loan_id = l2.loan_id
  · simp [h]
  · simp [h]

lemma updateStatus_map_id (loans : List Loan) (lid : Nat) (st : String) :
    (updateStatus loans lid st).map Loan.loan_id = loans.map Loan.loan_id := by
  unfold updateStatus
  rw [List.map_map]
  refine List.map_congr_left ?_
  intro m _
  by_cases h : m.loan_id = lid
  · simp [h]
  · simp [h]

lemma make_payment_nonpos {a : ℚ} (l : Loan) (now pid : Nat) (h : a ≤ 0) :
    Loan.make_payment l a now pid = .rejected "Payment amount must be positive" := by
  unfold Loan.make_payment
  rw [if_pos h]

lemma make_payment_exceeds {l : Loan} {a : ℚ} (now pid : Nat) (h1 : ¬ a ≤ 0)
    (h2 : l.current_balance < a) :
    Loan.make_payment l a now pid = .rejected "Payment exceeds current balance" := by
  unfold Loan.make_payment
  rw [if_neg h1, if_pos h2]

lemma make_payment_ok {l : Loan} {a : ℚ} (now pid : Nat) (h1 : ¬ a ≤ 0)
    (h2 : ¬ l.current_balance < a) :
    Loan.make_payment l a now pid = .accepted
      { l with current_balance := l.current_balance - a,
               status := if l.current_balance - a = 0 then "paid" else l.status }
      { payment_id := pid, loan_id := l.loan_id, amount := a, payment_date := now }
      "Payment successful" := by
  unfold Loan.make_payment
  rw [if_neg h1, if_neg h2]
  by_cases h3 : l.current_balance - a = 0
  · simp [h3]
  · simp [h3]

/-- The source payment path coincides with the spec's `ApplyPayment`
contract, branch for branch. -/
lemma pay_eq_spec (s : DBState) (lid : Nat) (amount : ℚ) (now : Nat) :
    LoanApplicationSystem.make_payment s lid amount now = applyPaymentSpec s lid amount now := by
  unfold LoanApplicationSystem.make_payment applyPaymentSpec paySession payCommit
  cases h : Loan.get_by_id s lid with
  | none => rfl
  | some l =>
    have hid : l.loan_id = lid := (get_by_id_mem h).2
    dsimp only
    by_cases hst : l.status = "approved"
    · by_cases h1 : amount ≤ 0
      · rw [make_payment_nonpos l now s.next_payment_id h1]
        simp [hst, not_lt, h1]
      · by_cases h2 : l.current_balance < amount
        · rw [make_payment_exceeds now s.next_payment_id h1 h2]
          simp [hst, not_lt, not_le, lt_of_not_le h1, h2]
        · rw [make_payment_ok now s.next_payment_id h1 h2]
          simp [hst, not_lt, not_le, lt_of_not_le h1, le_of_not_lt h2, hid]
    · simp [hst]

lemma paymentSum_eq_zero {ps : List Payment} {lid : Nat} (h : ∀ p ∈ ps, ¬ p.loan_id = lid) :
    paymentSum ps lid = 0 := by
  unfold paymentSum
  rw [List.filter_eq_nil_iff.mpr (by simpa using h)]
  rfl

lemma loanInv_of_sum_eq {ps qs : List Payment} {l : Loan} (h : LoanInv ps l)
    (hsum : paymentSum qs l.loan_id = paymentSum ps l.loan_id) : LoanInv qs l := by
  obtain ⟨e1, e2, e3, e4, e5, e6⟩ := h
  exact ⟨by rw [hsum]; exact e1, e2, by rw [hsum]; exact e3, by rw [hsum]; exact e4, e5, e6⟩

lemma storeInv_init : StoreInv initState := by
  refine ⟨?_, ?_, ?_⟩ <;> simp [initState]

lemma storeInv_apply (s : DBState) (uid : Nat) (a : ℚ) (t : ℤ) (n : Nat) (h : StoreInv s) :
    StoreInv (LoanApplicationSystem.apply_for_loan s uid a t n).1 := by
  obtain ⟨hL, hP, hND⟩ := h
  unfold LoanApplicationSystem.apply_for_loan
  dsimp only
  have hfresh : paymentSum s.payments s.next_loan_id = 0 :=
    paymentSum_eq_zero (fun p hp => Nat.ne_of_lt (hP p hp))
  refine ⟨?_, ?_, ?_⟩
  · intro l hmem
    rcases List.mem_append.mp hmem with hmem | hmem
    · obtain ⟨hlt, hinv⟩ := hL l hmem
      exact ⟨Nat.lt_succ_of_lt hlt, hinv⟩
    · rcases List.mem_singleton.mp hmem with rfl
      refine ⟨Nat.lt_succ_self _, ?_, ?_, ?_, ?_, ?_, ?_⟩
      · simpa using hfresh
      · exact fun hx => hx
      · intro _
        simpa using hfresh
      · dsimp only
        intro hcon
        exact absurd hcon (by decide)
      · dsimp only
        intro hcon
        exact absurd hcon (by decide)
      · dsimp only
        intro hcon
        exact absurd hcon (by decide)
  · intro p hp
    exact Nat.lt_succ_of_lt (hP p hp)
  · rw [List.map_append]
    simp only [List.map_cons, List.map_nil]
    rw [List.nodup_append]
    refine ⟨hND, List.nodup_singleton _, ?_⟩
    intro x hx hx2
    rcases List.mem_singleton.mp hx2 with rfl
    rcases List.mem_map.mp hx with ⟨m, hm, hmid⟩
    exact Nat.ne_of_lt (hL m hm).1 hmid

lemma storeInv_updateStatus (s : DBState) (sel : Loan) (hsel : sel ∈ s.loans)
    (hpend : sel.status = "pending") (st : String)
    (hst : st = "approved" ∨ st = "rejected") (h : StoreInv s) :
    StoreInv { s with loans := updateStatus s.loans sel.loan_id st } := by
  obtain ⟨hL, hP, hND⟩ := h
  refine ⟨?_, hP, by simpa [updateStatus_map_id] using hND⟩
  intro l hmem
  unfold updateStatus at hmem
  rcases List.mem_map.mp hmem with ⟨m, hm, rfl⟩
  by_cases hcase : m.loan_id = sel.loan_id
  · have hms : m = sel := mem_id_unique hND hm hsel hcase
    subst hms
    rw [if_pos hcase]
    obtain ⟨hlt, e1, e2, e3, e4, e5, e6⟩ := hL m hm
    have hsum0 : paymentSum s.payments m.loan_id = 0 := e3 hpend
    have hbal : m.current_balance = m.amount := by
      rw [← e1, hsum0, sub_zero]
    refine ⟨hlt, e1, e2, ?_, ?_, ?_, ?_⟩
    · dsimp only
      rcases hst with rfl | rfl <;> intro hcon <;> exact absurd hcon (by decide)
    · dsimp only
      rcases hst with rfl | rfl
      · intro hcon
        exact absurd hcon (by decide)
      · intro _
        exact hsum0
    · dsimp only
      rcases hst with rfl | rfl <;> intro hcon <;> exact absurd hcon (by decide)
    · dsimp only
      rcases hst with rfl | rfl
      · intro _ hamt
        rw [hbal]
        exact hamt
      · intro hcon
        exact absurd hcon (by decide)
  · rw [if_neg hcase]
    exact hL m hm

lemma storeInv_decide (s : DBState) (c : Nat) (act : String) (h : StoreInv s) :
    StoreInv (LoanApplicationSystem.approve_loans s c act).1 := by
  unfold LoanApplicationSystem.approve_loans
  dsimp only
  by_cases hemp : (s.loans.filter (fun l => l.status == "pending")).isEmpty
  · rw [if_pos hemp]
    exact h
  · rw [if_neg hemp]
    cases hget : (s.loans.filter (fun l => l.status == "pending")).get? c with
    | none => exact h
    | some sel =>
      have hselmem : sel ∈ s.loans.filter (fun l => l.status == "pending") := List.get?_mem hget
      have hsel : sel ∈ s.loans := (List.mem_filter.mp hselmem).1
      have hpend : sel.status = "pending" := by
        simpa using (List.mem_filter.mp hselmem).2
      dsimp only
      by_cases ha : (act == "a") = true
      · rw [if_pos ha]
        exact storeInv_updateStatus s sel hsel hpend "approved" (Or.inl rfl) h
      · rw [if_neg ha]
        by_cases hr : (act == "r") = true
        · rw [if_pos hr]
          exact storeInv_updateStatus s sel hsel hpend "rejected" (Or.inr rfl) h
        · rw [if_neg hr]
          exact h

lemma storeInv_pay (s : DBState) (lid : Nat) (a : ℚ) (n : Nat) (h : StoreInv s) :
    StoreInv (LoanApplicationSystem.make_payment s lid a n).1 := by
  rw [pay_eq_spec]
  unfold applyPaymentSpec
  cases hf : Loan.get_by_id s lid with
  | none => exact h
  | some l =>
    dsimp only
    by_cases hst : l.status ≠ "approved"
    · rw [if_pos hst]
      exact h
    · rw [if_neg hst]
      push_neg at hst
      by_cases h1 : ¬ 0 < a
      · rw [if_pos h1]
        exact h
      · rw [if_neg h1]
        push_neg at h1
        by_cases h2 : ¬ a ≤ l.current_balance
        · rw [if_pos h2]
          exact h
        · rw [if_neg h2]
          push_neg at h2
          obtain ⟨hmem, hid⟩ := get_by_id_mem hf
          obtain ⟨hL, hP, hND⟩ := h
          dsimp only
          refine ⟨?_, ?_, ?_⟩
          · intro m2 hm2
            unfold updateLoan at hm2
            rcases List.mem_map.mp hm2 with ⟨m, hm, rfl⟩
            dsimp only
            by_cases hcase : m.loan_id = l.loan_id
            · have hml : m = l := mem_id_unique hND hm hmem hcase
              subst hml
              rw [if_pos hcase]
              obtain ⟨hlt, e1, e2, e3, e4, e5, e6⟩ := hL m hm
              have hsum : paymentSum (s.payments ++
                  [{ payment_id := s.next_payment_id, loan_id := lid, amount := a,
                     payment_date := n }]) m.loan_id
                  = paymentSum s.payments m.loan_id + a := by
                rw [paymentSum_append]
                rw [if_pos hid.symm]
              refine ⟨hlt, ?_, ?_, ?_, ?_, ?_, ?_⟩
              · dsimp only
                rw [hsum, ← e1]
                ring
              · intro _
                dsimp only
                exact sub_nonneg.mpr h2
              · dsimp only
                by_cases hz : m.current_balance - a = 0
                · rw [if_pos hz]
                  intro hcon
                  exact absurd hcon (by decide)
                · rw [if_neg hz, hst]
                  intro hcon
                  exact absurd hcon (by decide)
              · dsimp only
                by_cases hz : m.current_balance - a = 0
                · rw [if_pos hz]
                  intro hcon
                  exact absurd hcon (by decide)
                · rw [if_neg hz, hst]
                  intro hcon
                  exact absurd hcon (by decide)
              · dsimp only
                by_cases hz : m.current_balance - a = 0
                · rw [if_pos hz]
                  intro _
                  exact hz
                · rw [if_neg hz, hst]
                  intro hcon
                  exact absurd hcon (by decide)
              · dsimp only
                by_cases hz : m.current_balance - a = 0
                · rw [if_pos hz]
                  intro hcon
                  exact absurd hcon (by decide)
                · rw [if_neg hz]
                  intro _ _
                  exact lt_of_le_of_ne (sub_nonneg.mpr h2) (Ne.symm hz)
            · rw [if_neg hcase]
              obtain ⟨hlt, hinv⟩ := hL m hm
              refine ⟨hlt, loanInv_of_sum_eq hinv ?_⟩
              rw [paymentSum_append, if_neg (fun hx => hcase (by rw [← hx, hid])), add_zero]
          · intro p hp
            rcases List.mem_append.mp hp with hp | hp
            · exact hP p hp
            · rcases List.mem_singleton.mp hp with rfl
              dsimp only
              rw [← hid]
              exact (hL l hmem).1
          · simpa [updateLoan_map_id] using hND

lemma storeInv_step (s : DBState) (op : Op) (h : StoreInv s) : StoreInv (step s op) := by
  cases op with
  | applyForLoan uid a t n => exact storeInv_apply s uid a t n h
  | decideLoan c act => exact storeInv_decide s c act h
  | payLoan lid a n => exact storeInv_pay s lid a n h

lemma storeInv_reachable {s : DBState} (h : Reachable s) : StoreInv s := by
  induction h with
  | base => exact storeInv_init
  | tail op _ ih => exact storeInv_step _ op ih

/-- `approve_loans` either leaves the store untouched or sets the status of
a loan that is currently pending to `approved` or `rejected`. -/
lemma approve_loans_cases (s : DBState) (c : Nat) (act : String) :
    (LoanApplicationSystem.approve_loans s c act).1 = s
    ∨ ∃ sel ∈ s.loans, sel.status = "pending"
        ∧ ((LoanApplicationSystem.approve_loans s c act).1
              = { s with loans := updateStatus s.loans sel.loan_id "approved" }
           ∨ (LoanApplicationSystem.approve_loans s c act).1
              = { s with loans := updateStatus s.loans sel.loan_id "rejected" }) := by
  unfold LoanApplicationSystem.approve_loans
  dsimp only
  by_cases hemp : (s.loans.filter (fun l => l.status == "pending")).isEmpty
  · rw [if_pos hemp]
    exact Or.inl rfl
  · rw [if_neg hemp]
    cases hget : (s.loans.filter (fun l => l.status == "pending")).get? c with
    | none => exact Or.inl rfl
    | some sel =>
      have hselmem : sel ∈ s.loans.filter (fun l => l.status == "pending") := List.get?_mem hget
      have hsel : sel ∈ s.loans := (List.mem_filter.mp hselmem).1
      have hpend : sel.status = "pending" := by
        simpa using (List.mem_filter.mp hselmem).2
      dsimp only
      by_cases ha : (act == "a") = true
      · rw [if_pos ha]
        exact Or.inr ⟨sel, hsel, hpend, Or.inl rfl⟩
      · rw [if_neg ha]
        by_cases hr : (act == "r") = true
        · rw [if_pos hr]
          exact Or.inr ⟨sel, hsel, hpend, Or.inr rfl⟩
        · rw [if_neg hr]
          exact Or.inl rfl

/-- The payment path either leaves the store untouched or, when the target
loan exists with status `approved` and `0 < a ≤ balance`, commits the
balance decrement, the payment row, and the possible flip to `paid`. -/
lemma make_payment_cases (s : DBState) (lid : Nat) (a : ℚ) (n : Nat) :
    (LoanApplicationSystem.make_payment s lid a n).1 = s
    ∨ ∃ l, Loan.get_by_id s lid = some l ∧ l.status = "approved" ∧ 0 < a
        ∧ a ≤ l.current_balance
        ∧ (LoanApplicationSystem.make_payment s lid a n).1
            = { s with
                loans := updateLoan s.loans
                  { l with current_balance := l.current_balance - a,
                           status := if l.current_balance - a = 0 then "paid" else l.status },
                payments := s.payments ++
                  [{ payment_id := s.next_payment_id, loan_id := lid, amount := a,
                     payment_date := n }],
                next_payment_id := s.next_payment_id + 1 } := by
  rw [pay_eq_spec]
  unfold applyPaymentSpec
  cases hf : Loan.get_by_id s lid with
  | none => exact Or.inl rfl
  | some l =>
    dsimp only
    by_cases hst : l.status ≠ "approved"
    · rw [if_pos hst]
      exact Or.inl rfl
    · rw [if_neg hst]
      push_neg at hst
      by_cases h1 : ¬ 0 < a
      · rw [if_pos h1]
        exact Or.inl rfl
      · rw [if_neg h1]
        push_neg at h1
        by_cases h2 : ¬ a ≤ l.current_balance
        · rw [if_pos h2]
          exact Or.inl rfl
        · rw [if_neg h2]
          push_neg at h2
          exact Or.inr ⟨l, rfl, hst, h1, h2, rfl⟩

/-- How one committed operation can change a single loan row: every field
except `status` and `current_balance` is untouched, the balance never
grows, and the status moves only along the machine's forward edges. -/
lemma loan_evolution (s : DBState) (op : Op) (h : StoreInv s) {l l2 : Loan}
    (hl : l ∈ s.loans) (hl2 : l2 ∈ (step s op).loans) (hid : l2.loan_id = l.loan_id) :
    l2.user_id = l.user_id ∧ l2.amount = l.amount ∧ l2.term = l.term
    ∧ l2.interest_rate = l.interest_rate ∧ l2.created_at = l.created_at
    ∧ l2.current_balance ≤ l.current_balance ∧ allowedNext l.status l2.status := by
  obtain ⟨hL, hP, hND⟩ := h
  cases op with
  | applyForLoan uid a t n =>
    simp only [step, LoanApplicationSystem.apply_for_loan] at hl2
    rcases List.mem_append.mp hl2 with hl2 | hl2
    · rcases mem_id_unique hND hl2 hl hid with rfl
      exact ⟨rfl, rfl, rfl, rfl, rfl, le_refl _, Or.inl rfl⟩
    · rcases List.mem_singleton.mp hl2 with rfl
      exact absurd ((hid : s.next_loan_id = l.loan_id) ▸ (hL l hl).1) (Nat.lt_irrefl _)
  | decideLoan c act =>
    simp only [step] at hl2
    rcases approve_loans_cases s c act with heq | ⟨sel, hsel, hpend, heq⟩
    · rw [heq] at hl2
      rcases mem_id_unique hND hl2 hl hid with rfl
      exact ⟨rfl, rfl, rfl, rfl, rfl, le_refl _, Or.inl rfl⟩
    · have main : ∀ st : String, st = "approved" ∨ st = "rejected" →
          l2 ∈ updateStatus s.loans sel.loan_id st →
          l2.user_id = l.user_id ∧ l2.amount = l.amount ∧ l2.term = l.term
          ∧ l2.interest_rate = l.interest_rate ∧ l2.created_at = l.created_at
          ∧ l2.current_balance ≤ l.current_balance ∧ allowedNext l.status l2.status := by
        intro st hstv hl2
        unfold updateStatus at hl2
        rcases List.mem_map.mp hl2 with ⟨m, hm, rfl⟩
        by_cases hcase : m.loan_id = sel.loan_id
        · rw [if_pos hcase] at hid ⊢
          dsimp only at hid ⊢
          rcases mem_id_unique hND hm hl hid with rfl
          rcases mem_id_unique hND hm hsel hcase with rfl
          refine ⟨rfl, rfl, rfl, rfl, rfl, le_refl _, ?_⟩
          rcases hstv with rfl | rfl
          · exact Or.inr (Or.inl ⟨hpend, Or.inl rfl⟩)
          · exact Or.inr (Or.inl ⟨hpend, Or.inr rfl⟩)
        · rw [if_neg hcase] at hid ⊢
          rcases mem_id_unique hND hm hl hid with rfl
          exact ⟨rfl, rfl, rfl, rfl, rfl, le_refl _, Or.inl rfl⟩
      rcases heq with heq | heq
      · rw [heq] at hl2
        exact main "approved" (Or.inl rfl) hl2
      · rw [heq] at hl2
        exact main "rejected" (Or.inr rfl) hl2
  | payLoan lid a n =>
    simp only [step] at hl2
    rcases make_payment_cases s lid a n with heq | ⟨lt, hf, hst, h1, h2, heq⟩
    · rw [heq] at hl2
      rcases mem_id_unique hND hl2 hl hid with rfl
      exact ⟨rfl, rfl, rfl, rfl, rfl, le_refl _, Or.inl rfl⟩
    · rw [heq] at hl2
      obtain ⟨htmem, htid⟩ := get_by_id_mem hf
      dsimp only at hl2
      unfold updateLoan at hl2
      rcases List.mem_map.mp hl2 with ⟨m, hm, rfl⟩
      by_cases hcase : m.loan_id = lt.loan_id
      · rw [if_pos hcase] at hid ⊢
        dsimp only at hid ⊢
        rcases mem_id_unique hND hm hl (hcase.trans hid) with rfl
        rcases mem_id_unique hND hm htmem hcase with rfl
        refine ⟨rfl, rfl, rfl, rfl, rfl, sub_le_self _ (le_of_lt h1), ?_⟩
        by_cases hz : m.current_balance - a = 0
        · rw [if_pos hz]
          exact Or.inr (Or.inr ⟨hst, rfl⟩)
        · rw [if_neg hz]
          exact Or.inl rfl
      · rw [if_neg hcase] at hid ⊢
        rcases mem_id_unique hND hm hl hid with rfl
        exact ⟨rfl, rfl, rfl, rfl, rfl, le_refl _, Or.inl rfl⟩

/-!
## Concrete runs

Reachable stores built by explicit operation chains, with their literal
values established once so later facts about them are decidable.
`loanA` is a 100.00 loan over 12 months (derived rate 6.0) requested by the
admin account at tick 0; `loanB` a 50.00 loan over 24 months (rate 7.0) at
tick 1; `loanZ` a loan requested with principal 0; `loanN` one requested
with principal -100.
-/

def loanA : Loan :=
  { loan_id := 1, user_id := 1, amount := 100, term := 12, interest_rate := 6,
    status := "pending", created_at := 0, current_balance := 100 }

def loanA_app : Loan := { loanA with status := "approved" }

def loanA60 : Loan := { loanA_app with current_balance := 60 }

def loanA30 : Loan := { loanA_app with current_balance := 30 }

def loanApaid : Loan := { loanA with status := "paid", current_balance := 0 }

def loanB : Loan :=
  { loan_id := 2, user_id := 1, amount := 50, term := 24, interest_rate := 7,
    status := "pending", created_at := 1, current_balance := 50 }

def loanZ : Loan :=
  { loan_id := 1, user_id := 1, amount := 0, term := 12, interest_rate := 6,
    status := "pending", created_at := 0, current_balance := 0 }

def loanZ_app : Loan := { loanZ with status := "approved" }

def loanN : Loan :=
  { loan_id := 1, user_id := 1, amount := -100, term := 12, interest_rate := 6,
    status := "pending", created_at := 0, current_balance := -100 }

def stA : DBState :=
  { users := initState.users, loans := [loanA], payments := [], next_loan_id := 2,
    next_payment_id := 1 }

def stS2 : DBState := { stA with loans := [loanA, loanB], next_loan_id := 3 }

def stS3 : DBState := { stS2 with loans := [loanA_app, loanB] }

def stT2 : DBState := { stA with loans := [loanA_app] }

def stP1 : DBState :=
  { stA with
    loans := [loanA60],
    payments := [{ payment_id := 1, loan_id := 1, amount := 40, payment_date := 2 }],
    next_payment_id := 2 }

def stP2 : DBState :=
  { stA with
    loans := [loanApaid],
    payments := [{ payment_id := 1, loan_id := 1, amount := 40, payment_date := 2 },
                 { payment_id := 2, loan_id := 1, amount := 60, payment_date := 3 }],
    next_payment_id := 3 }

def stZ1 : DBState := { stA with loans := [loanZ] }

def stZ2 : DBState := { stA with loans := [loanZ_app] }

def stN1 : DBState := { stA with loans := [loanN] }

lemma step_stA : step initState (Op.applyForLoan 1 100 12 0) = stA := by
  simp [step, LoanApplicationSystem.apply_for_loan, initState, stA, loanA]
  norm_num

lemma step_stS2 : step stA (Op.applyForLoan 1 50 24 1) = stS2 := by
  simp [step, LoanApplicationSystem.apply_for_loan, initState, stA, stS2, loanB]
  norm_num

lemma step_stS3 : step stS2 (Op.decideLoan 0 "a") = stS3 := by decide

lemma step_stT2 : step stA (Op.decideLoan 0 "a") = stT2 := by decide

lemma step_stP1 : step stT2 (Op.payLoan 1 40 2) = stP1 := by
  norm_num [step, LoanApplicationSystem.make_payment, Loan.get_by_id, paySession, payCommit,
    Loan.make_payment, updateLoan, stT2, stP1, stA, loanA, loanA_app, loanA60, List.find?]

lemma step_stP2 : step stP1 (Op.payLoan 1 60 3) = stP2 := by
  norm_num [step, LoanApplicationSystem.make_payment, Loan.get_by_id, paySession, payCommit,
    Loan.make_payment, updateLoan, stP1, stP2, stA, loanA, loanA_app, loanA60, loanApaid,
    List.find?]

lemma step_stZ1 : step initState (Op.applyForLoan 1 0 12 0) = stZ1 := by
  simp [step, LoanApplicationSystem.apply_for_loan, initState, stA, stZ1, loanZ]
  norm_num

lemma step_stZ2 : step stZ1 (Op.decideLoan 0 "a") = stZ2 := by decide

lemma step_stN1 : step initState (Op.applyForLoan 1 (-100) 12 0) = stN1 := by
  simp [step, LoanApplicationSystem.apply_for_loan, initState, stA, stN1, loanN]
  norm_num

lemma reach_stA : Reachable stA := step_stA ▸ Reachable.tail _ Reachable.base

lemma reach_stS2 : Reachable stS2 := step_stS2 ▸ Reachable.tail _ reach_stA

lemma reach_stS3 : Reachable stS3 := step_stS3 ▸ Reachable.tail _ reach_stS2

lemma reach_stT2 : Reachable stT2 := step_stT2 ▸ Reachable.tail _ reach_stA

lemma reach_stP1 : Reachable stP1 := step_stP1 ▸ Reachable.tail _ reach_stT2

lemma reach_stP2 : Reachable stP2 := step_stP2 ▸ Reachable.tail _ reach_stP1

lemma reach_stZ1 : Reachable stZ1 := step_stZ1 ▸ Reachable.tail _ Reachable.base

lemma reach_stZ2 : Reachable stZ2 := step_stZ2 ▸ Reachable.tail _ reach_stZ1

lemma reach_stN1 : Reachable stN1 := step_stN1 ▸ Reachable.tail _ Reachable.base

lemma find?_map_of_pred_preserved (p : Loan → Bool) (f : Loan → Loan)
    (hpf : ∀ m, p (f m) = p m) (loans : List Loan) :
    (loans.map f).find? p = (loans.find? p).map f := by
  rw [List.find?_map]
  rw [show p ∘ f = p from funext hpf]

lemma get_by_id_updateLoan (s : DBState) (l2 : Loan) (lid : Nat) :
    Loan.get_by_id { s with loans := updateLoan s.loans l2 } lid
      = (Loan.get_by_id s lid).map (fun m => if m.loan_id = l2.loan_id then l2 else m) := by
  unfold Loan.get_by_id updateLoan
  dsimp only
  refine find?_map_of_pred_preserved _ _ ?_ _
  intro m
  by_cases h : m.loan_id = l2.loan_id
  · simp [h]
  · simp [h]

lemma get_by_id_updateStatus (s : DBState) (lid2 : Nat) (st : String) (lid : Nat) :
    Loan.get_by_id { s with loans := updateStatus s.loans lid2 st } lid
      = (Loan.get_by_id s lid).map
          (fun m => if m.loan_id = lid2 then { m with status := st } else m) := by
  unfold Loan.get_by_id updateStatus
  dsimp only
  refine find?_map_of_pred_preserved _ _ ?_ _
  intro m
  by_cases h : m.loan_id = lid2
  · simp [h]
  · simp [h]

/-!
## C1: the ledger equation, balance bounds, and monotonicity
-/

/-- C1 counterexample: the claim asserts `currentBalance ≥ 0` for every
loan after every committed operation, but `apply_for_loan` performs no
input validation, so requesting a loan with principal -100 commits a
reachable store holding a loan whose balance is -100 < 0. -/
theorem c1_counterexample :
    Reachable stN1 ∧ loanN ∈ stN1.loans ∧ loanN.current_balance < 0 :=
  ⟨reach_stN1, by decide, by norm_num [loanN]⟩

/-- C1 (amended): in every reachable store, every loan satisfies
`principal − Σ payments = currentBalance`; its balance is nonnegative
whenever its principal is nonnegative (the unvalidated negative-principal
loans of the counterexample are the only exception); no committed
operation ever increases a loan's balance; and a freshly created loan's
balance equals its principal. -/
theorem c1_ledger_invariant (s : DBState) (hs : Reachable s) (op : Op)
    (l l2 : Loan) (hl : l ∈ s.loans) (hl2 : l2 ∈ (step s op).loans)
    (hid : l2.loan_id = l.loan_id) (uid : Nat) (a : ℚ) (t : ℤ) (n : Nat) :
    l.amount - paymentSum s.payments l.loan_id = l.current_balance
    ∧ (0 ≤ l.amount → 0 ≤ l.current_balance)
    ∧ l2.current_balance ≤ l.current_balance
    ∧ (LoanApplicationSystem.apply_for_loan s uid a t n).2.current_balance = a
    ∧ (LoanApplicationSystem.apply_for_loan s uid a t n).2.amount = a := by
  have hinv := storeInv_reachable hs
  have hevo := loan_evolution s op hinv hl hl2 hid
  exact ⟨(hinv.1 l hl).2.1, (hinv.1 l hl).2.2.1, hevo.2.2.2.2.2.1, rfl, rfl⟩

/-- C1 witness: the amended invariant instantiated on the reachable store
holding the approved 100.00 loan, across the 40.00 payment step. -/
theorem c1_ledger_invariant_witness :
    loanA_app.amount - paymentSum stT2.payments loanA_app.loan_id = loanA_app.current_balance
    ∧ (0 ≤ loanA_app.amount → 0 ≤ loanA_app.current_balance)
    ∧ loanA60.current_balance ≤ loanA_app.current_balance
    ∧ (LoanApplicationSystem.apply_for_loan stT2 1 50 24 9).2.current_balance = 50
    ∧ (LoanApplicationSystem.apply_for_loan stT2 1 50 24 9).2.amount = 50 :=
  c1_ledger_invariant stT2 reach_stT2 (Op.payLoan 1 40 2) loanA_app loanA60
    (by decide) (step_stP1.symm ▸ (by decide : loanA60 ∈ stP1.loans)) rfl 1 50 24 9

/-!
## C2: the ApplyPayment contract
-/

/-- C2: the payment path fails with a typed outcome and no store mutation
unless the target loan exists, is `approved`, and `0 < amount ≤ balance`;
when all hold it decrements the balance by exactly the amount, appends
exactly one payment row with that amount, flips to `paid` on zero, and
reports the updated balance and status — stated as branch-for-branch
equality with `applyPaymentSpec`, the contract transcribed from the
claim's words. -/
theorem c2_apply_payment_contract (s : DBState) (lid : Nat) (amount : ℚ) (now : Nat) :
    LoanApplicationSystem.make_payment s lid amount now = applyPaymentSpec s lid amount now :=
  pay_eq_spec s lid amount now

/-!
## C3: two simultaneous payments of 70.00 against balance 100.00
-/

/-- The store after session A's commit in the C3 race. -/
def stL1 : DBState :=
  { stA with
    loans := [loanA30],
    payments := [{ payment_id := 1, loan_id := 1, amount := 70, payment_date := 5 }],
    next_payment_id := 2 }

/-- The store after session B's commit in the C3 race. -/
def stL2 : DBState :=
  { stA with
    loans := [loanA30],
    payments := [{ payment_id := 1, loan_id := 1, amount := 70, payment_date := 5 },
                 { payment_id := 2, loan_id := 1, amount := 70, payment_date := 6 }],
    next_payment_id := 3 }

/-- C3: the code has no transaction around read-validate-write
(`autocommit = True`, no locking), so when two sessions both read the
approved loan at balance 100.00 before either writes (both hold the loan
object `loanA_app`), BOTH payments of 70.00 succeed: each validates
`70 ≤ 100` against its stale object, two payment rows of 70.00 are
inserted, and the lost update leaves the stored balance at 30.00 while
`principal − Σ payments = 100 − 140 = -40 ≠ 30` — the claim's required
"exactly one succeeds, exactly one new payment row" fails. -/
theorem c3_lost_update :
    Loan.get_by_id stT2 1 = some loanA_app
    ∧ loanA_app.current_balance = 100
    ∧ paySession stT2 loanA_app 70 5 = (stL1, PayOutcome.success 30 "approved")
    ∧ paySession stL1 loanA_app 70 6 = (stL2, PayOutcome.success 30 "approved")
    ∧ Loan.get_by_id stL2 1 = some loanA30
    ∧ stL2.payments.length = 2
    ∧ paymentSum stL2.payments 1 = 140
    ∧ loanA30.amount - paymentSum stL2.payments 1 ≠ loanA30.current_balance := by
  refine ⟨by decide, by decide, ?_, ?_, by decide, by decide, ?_, ?_⟩
  · norm_num [paySession, payCommit, Loan.make_payment, updateLoan, stT2, stL1, stA, loanA,
      loanA_app, loanA30]
  · norm_num [paySession, payCommit, Loan.make_payment, updateLoan, stL1, stL2, stA, loanA,
      loanA_app, loanA30]
  · norm_num [paymentSum, stL2, stA]
  · norm_num [paymentSum, stL2, stA, loanA30, loanA_app, loanA]

/-!
## C4: forward-only status transitions; deciding twice
-/

/-- C4 counterexample: the claim says a second `Decide` on an
already-decided loan "fails with InvalidState".  After the first decision
(the approved loan in `stT2`), the spec-modelled `DecideSpec` indeed
reports `invalidState` — but the source's `approve_loans` cannot even
address the loan: its selection list holds only currently-pending rows, so
the attempt is reported as "No pending loans to approve." with the store
untouched.  There is no InvalidState-typed failure in the source. -/
theorem c4_counterexample :
    DecideSpec stT2 1 true = (stT2, some DecideError.invalidState)
    ∧ LoanApplicationSystem.approve_loans stT2 0 "r" = (stT2, "No pending loans to approve.")
    ∧ Loan.get_by_id (LoanApplicationSystem.approve_loans stT2 0 "r").1 1 = some loanA_app :=
  ⟨by decide, by decide, by decide⟩

/-- C4 (amended): in every reachable store a loan's status only ever moves
along `pending → approved → paid` or `pending → rejected` (so a loan is
decided at most once and `rejected`, `paid` are terminal), and a decide
attempt leaves every non-pending loan exactly as it was — the pending
queue no longer offers it, the failure surfacing as a no-pending or
invalid-selection report, not as a typed InvalidState error. -/
theorem c4_forward_transitions (s : DBState) (hs : Reachable s) (op : Op) (c : Nat)
    (act : String) (l l2 : Loan) (hl : l ∈ s.loans) (hl2 : l2 ∈ (step s op).loans)
    (hid : l2.loan_id = l.loan_id) :
    allowedNext l.status l2.status
    ∧ (l.status ≠ "pending" →
        Loan.get_by_id (LoanApplicationSystem.approve_loans s c act).1 l.loan_id = some l) := by
  have hinv := storeInv_reachable hs
  refine ⟨(loan_evolution s op hinv hl hl2 hid).2.2.2.2.2.2, ?_⟩
  intro hnp
  obtain ⟨hL, hP, hND⟩ := hinv
  have hbase : Loan.get_by_id s l.loan_id = some l := get_by_id_of_mem hND hl
  rcases approve_loans_cases s c act with heq | ⟨sel, hsel, hpend, heq⟩
  · rw [heq]
    exact hbase
  · have hne : ¬ l.loan_id = sel.loan_id := by
      intro he
      have : l = sel := mem_id_unique hND hl hsel he
      rw [this] at hnp
      exact hnp hpend
    rcases heq with heq | heq <;>
      (rw [heq, get_by_id_updateStatus, hbase]; simp [hne])

/-- C4 witness: the transition taken by the 40.00 payment on the approved
loan is a legal forward move, and a decide attempt on the store leaves the
approved loan untouched. -/
theorem c4_forward_transitions_witness :
    allowedNext loanA_app.status loanA60.status
    ∧ Loan.get_by_id (LoanApplicationSystem.approve_loans stT2 0 "r").1 loanA_app.loan_id
        = some loanA_app :=
  ⟨(c4_forward_transitions stT2 reach_stT2 (Op.payLoan 1 40 2) 0 "r" loanA_app loanA60
      (by decide) (step_stP1.symm ▸ (by decide : loanA60 ∈ stP1.loans)) rfl).1,
   (c4_forward_transitions stT2 reach_stT2 (Op.payLoan 1 40 2) 0 "r" loanA_app loanA60
      (by decide) (step_stP1.symm ▸ (by decide : loanA60 ∈ stP1.loans)) rfl).2 (by decide)⟩

/-!
## C5: pay 40 then 60; Paid exactly at balance zero
-/

/-- C5 counterexample: the claim's biconditional "after Approved, status is
Paid exactly when the balance is 0" fails on the code: a loan requested
with principal 0 (accepted unvalidated) and then approved is a reachable
loan with status `approved` and balance 0 that is not `paid`. -/
theorem c5_counterexample :
    Reachable stZ2 ∧ Loan.get_by_id stZ2 1 = some loanZ_app
    ∧ loanZ_app.status = "approved" ∧ loanZ_app.current_balance = 0
    ∧ loanZ_app.status ≠ "paid" :=
  ⟨reach_stZ2, by decide, by decide, by decide, by decide⟩

/-- C5 (amended): paying 40.00 then 60.00 into the approved 100.00 loan
yields balance 0.00 and status `paid`; any subsequent payment of any
amount on that loan fails with the not-approved report and changes
nothing; and in every reachable store a loan of positive principal that
has reached `approved` (status `approved` or `paid`) is `paid` exactly
when its balance is 0. -/
theorem c5_paid_iff_zero (s : DBState) (hs : Reachable s) (l : Loan) (hl : l ∈ s.loans)
    (hpos : 0 < l.amount) (amt : ℚ) (hamt : 0 < amt) (n : Nat) :
    step (step stT2 (Op.payLoan 1 40 2)) (Op.payLoan 1 60 3) = stP2
    ∧ Loan.get_by_id stP2 1 = some loanApaid
    ∧ loanApaid.current_balance = 0 ∧ loanApaid.status = "paid"
    ∧ LoanApplicationSystem.make_payment stP2 1 amt n = (stP2, PayOutcome.notApproved)
    ∧ ((l.status = "approved" ∨ l.status = "paid") →
        (l.status = "paid" ↔ l.current_balance = 0)) := by
  have hinv := storeInv_reachable hs
  obtain ⟨hlt, e1, e2, e3, e4, e5, e6⟩ := (hinv.1 l hl)
  refine ⟨by rw [step_stP1, step_stP2], by decide, by decide, by decide, ?_, ?_⟩
  · unfold LoanApplicationSystem.make_payment paySession
    rw [(by decide : Loan.get_by_id stP2 1 = some loanApaid)]
    dsimp only
    rw [if_pos (by decide : loanApaid.status ≠ "approved")]
  · intro hap
    constructor
    · exact e5
    · intro hz
      rcases hap with hap | hap
      · exact absurd hz (e6 hap hpos).ne'
      · exact hap

/-- C5 witness: the amended statement instantiated on the paid loan of the
reachable store `stP2`, with a subsequent attempted payment of 5.00. -/
theorem c5_paid_iff_zero_witness :
    step (step stT2 (Op.payLoan 1 40 2)) (Op.payLoan 1 60 3) = stP2
    ∧ Loan.get_by_id stP2 1 = some loanApaid
    ∧ loanApaid.current_balance = 0 ∧ loanApaid.status = "paid"
    ∧ LoanApplicationSystem.make_payment stP2 1 5 7 = (stP2, PayOutcome.notApproved)
    ∧ ((loanApaid.status = "approved" ∨ loanApaid.status = "paid") →
        (loanApaid.status = "paid" ↔ loanApaid.current_balance = 0)) :=
  c5_paid_iff_zero stP2 reach_stP2 loanApaid (by decide) (by norm_num [loanApaid, loanA])
    5 (by norm_num) 7

/-!
## C6: origination accepts any numeric principal and term
-/

/-- The loan `apply_for_loan` creates from principal -100 and term -3
(rate `min(5 + (-3)/12, 15) = 19/4`). -/
def loanN6 : Loan :=
  { loan_id := 1, user_id := 1, amount := -100, term := -3, interest_rate := 19 / 4,
    status := "pending", created_at := 0, current_balance := -100 }

/-- C6: the claim says Request fails with InvalidInput when
`principal ≤ 0` or `termMonths ≤ 0`; the source only guards against
non-numeric input, so principal -100 with term -3 sails through and a
pending loan with balance -100 is created and committed. -/
theorem c6_no_input_validation :
    ((-100 : ℚ) ≤ 0) ∧ ((-3 : ℤ) ≤ 0)
    ∧ (LoanApplicationSystem.apply_for_loan initState 1 (-100) (-3) 0).1.loans = [loanN6]
    ∧ (LoanApplicationSystem.apply_for_loan initState 1 (-100) (-3) 0).2 = loanN6
    ∧ loanN6.status = "pending" ∧ loanN6.current_balance = -100
    ∧ loanN6.user_id = 1 := by
  refine ⟨by norm_num, by norm_num, ?_, ?_, by decide, by decide, by decide⟩ <;>
    (simp [LoanApplicationSystem.apply_for_loan, initState, loanN6]; norm_num [min_def])

/-!
## C7: the derived interest rate
-/

/-- C7: every loan created by `apply_for_loan` carries the interest rate
`min(5.0 + termMonths/12, 15.0)`; in particular term 24 yields 7.0 and
term 144 caps at 15.0. -/
theorem c7_interest_rate (s : DBState) (uid : Nat) (a : ℚ) (t : ℤ) (n : Nat) :
    (LoanApplicationSystem.apply_for_loan s uid a t n).2.interest_rate
      = min (5 + (t : ℚ) / 12) 15
    ∧ (LoanApplicationSystem.apply_for_loan initState 1 1000 24 0).2.interest_rate = 7
    ∧ (LoanApplicationSystem.apply_for_loan initState 1 1000 144 0).2.interest_rate = 15 := by
  refine ⟨rfl, ?_, ?_⟩ <;> norm_num [LoanApplicationSystem.apply_for_loan, min_def]

/-!
## C9: ordering of the read-side queries
-/

/-- C9 counterexample: the pending-loans query of `approve_loans` has no
`ORDER BY`, so the pending queue comes back in table order: with two
pending loans created at ticks 0 and 1, the queue's head is the OLDER
loan, not the most recent one as the claim requires. -/
theorem c9_counterexample :
    Reachable stS2
    ∧ pending_queue stS2 = [(loanA, "admin"), (loanB, "admin")]
    ∧ loanA.created_at < loanB.created_at :=
  ⟨reach_stS2, by decide, by decide⟩

/-- C9 (amended): `get_user_loans` returns exactly the account's loans
sorted by `created_at` descending, and `get_loan_payments` returns exactly
the loan's payments sorted by `payment_date` descending; the pending
queue's query carries no ordering clause and is returned in table order. -/
theorem c9_query_order (s : DBState) (uid lid : Nat) :
    List.Sorted createdLater (Loan.get_user_loans s uid)
    ∧ List.Perm (Loan.get_user_loans s uid) (s.loans.filter (fun l => l.user_id == uid))
    ∧ List.Sorted appliedLater (Payment.get_loan_payments s lid)
    ∧ List.Perm (Payment.get_loan_payments s lid)
        (s.payments.filter (fun p => p.loan_id == lid)) :=
  ⟨List.sorted_insertionSort createdLater _, List.perm_insertionSort createdLater _,
   List.sorted_insertionSort appliedLater _, List.perm_insertionSort appliedLater _⟩

/-!
## C10: the frame of a successful payment
-/

lemma find?_updateLoan (loans : List Loan) (l2 : Loan) (lid : Nat) :
    (updateLoan loans l2).find? (fun m => m.loan_id == lid)
      = (loans.find? (fun m => m.loan_id == lid)).map
          (fun m => if m.loan_id = l2.loan_id then l2 else m) := by
  unfold updateLoan
  refine find?_map_of_pred_preserved _ _ ?_ _
  intro m
  by_cases h : m.loan_id = l2.loan_id
  · simp [h]
  · simp [h]

/-- C10: a successful payment touches only the target loan's
`current_balance` and (possibly) `status` — the stored row keeps its id,
owner, principal, term, rate and creation time — appends exactly one new
payment row, modifies no existing payment, leaves every other loan in
place, and preserves the number of loan rows. -/
theorem c10_payment_frame (s : DBState) (lid : Nat) (a : ℚ) (n : Nat) (l : Loan)
    (hf : Loan.get_by_id s lid = some l) (hst : l.status = "approved")
    (h1 : 0 < a) (h2 : a ≤ l.current_balance)
    (m : Loan) (hm : m ∈ s.loans) (hmne : m.loan_id ≠ lid) :
    (LoanApplicationSystem.make_payment s lid a n).1.payments
      = s.payments ++ [{ payment_id := s.next_payment_id, loan_id := lid, amount := a,
                         payment_date := n }]
    ∧ Loan.get_by_id (LoanApplicationSystem.make_payment s lid a n).1 lid
        = some { l with
                 current_balance := l.current_balance - a,
                 status := if l.current_balance - a = 0 then "paid" else l.status }
    ∧ m ∈ (LoanApplicationSystem.make_payment s lid a n).1.loans
    ∧ (LoanApplicationSystem.make_payment s lid a n).1.loans.length = s.loans.length := by
  have hid := (get_by_id_mem hf).2
  have hf' := hf
  unfold Loan.get_by_id at hf'
  rw [pay_eq_spec]
  unfold applyPaymentSpec
  rw [hf]
  dsimp only
  rw [if_neg (by simp [hst]), if_neg (not_not_intro h1), if_neg (not_not_intro h2)]
  refine ⟨rfl, ?_, ?_, ?_⟩
  · unfold Loan.get_by_id
    dsimp only
    rw [find?_updateLoan, hf']
    simp
  · refine List.mem_map.mpr ⟨m, hm, ?_⟩
    dsimp only
    rw [if_neg (fun hcon => hmne (hid ▸ hcon))]
  · simp [updateLoan]

/-- C10 witness: the 40.00 payment on the approved loan of the two-loan
store `stS3` appends one payment row, rewrites only the target row's
balance and status, and leaves the other (pending) loan in place. -/
theorem c10_payment_frame_witness :
    (LoanApplicationSystem.make_payment stS3 1 40 9).1.payments
      = stS3.payments ++ [{ payment_id := stS3.next_payment_id, loan_id := 1, amount := 40,
                            payment_date := 9 }]
    ∧ Loan.get_by_id (LoanApplicationSystem.make_payment stS3 1 40 9).1 1
        = some { loanA_app with
                 current_balance := loanA_app.current_balance - 40,
                 status := if loanA_app.current_balance - 40 = 0 then "paid"
                           else loanA_app.status }
    ∧ loanB ∈ (LoanApplicationSystem.make_payment stS3 1 40 9).1.loans
    ∧ (LoanApplicationSystem.make_payment stS3 1 40 9).1.loans.length = stS3.loans.length :=
  c10_payment_frame stS3 1 40 9 loanA_app (by decide) (by decide) (by norm_num)
    (by norm_num [loanA_app, loanA]) loanB (by decide) (by decide)
